import Mathlib

/-
Verification of the Mosaic streaming-hydration core: a shallow embedding of
the stream state store (src/frontend/stores/stream.ts) and of the
HybridRenderer reconciliation engine
(src/frontend/components/HybridRenderer.tsx), with theorems settling the
specified properties of the event decoder, the data resolver, the slot
mounter/reconciler and the interaction dispatcher.
-/

namespace Mosaic

/-- JSON values as produced by the host JSON.parse.  Numbers are modelled as
integers (every status code and payload number relevant here is integral). -/
inductive Json where
  | null
  | bool (b : Bool)
  | num (n : Int)
  | str (s : String)
  | arr (elems : List Json)
  | obj (fields : List (String × Json))
  deriving Repr

/-- JS member access `v[k]` for a string key on a parsed JSON value.
Returns none for JS undefined (absent property, or property access on a
primitive).  Per the wire protocol and the DataContext type
(src/frontend/components/types.ts), every value accessed this way by the
embedded code is a JSON object, so array index coercion and string character
indexing are not modelled. -/
def jsGet : Json → String → Option Json
  | .obj fields, k => (fields.find? (fun f => f.1 = k)).map (fun f => f.2)
  | _, _ => none

/-- JS falsiness of a defined value (null, false, 0 and the empty string are
falsy; objects and arrays are truthy). -/
def jsFalsy : Json → Bool
  | .null => true
  | .bool b => !b
  | .num n => n == 0
  | .str s => s == ""
  | .arr _ => false
  | .obj _ => false

/-- JS truthiness of a possibly-undefined value (undefined is falsy). -/
def jsTruthyO : Option Json → Bool
  | none => false
  | some v => !jsFalsy v

/-- JS logical or `a || b` on possibly-undefined values: the left operand if
truthy, otherwise the right operand. -/
def jsOr (a b : Option Json) : Option Json :=
  if jsTruthyO a then a else b

mutual
/-- JS string coercion of a defined value, as used by template literals and
string concatenation in the embedded code. -/
def jsToString : Json → String
  | .null => "null"
  | .bool b => if b then "true" else "false"
  | .num n => toString n
  | .str s => s
  | .arr es => strJoinComma (jsToStringList es)
  | .obj _ => "[object Object]"

def jsToStringList : List Json → List String
  | [] => []
  | x :: xs => jsToString x :: jsToStringList xs

def strJoinComma : List String → String
  | [] => ""
  | [x] => x
  | x :: y :: xs => x ++ "," ++ strJoinComma (y :: xs)
end

/-- JS string coercion including undefined (which prints as the word
undefined, exactly as the ui handler would concatenate it). -/
def jsToStringU : Option Json → String
  | none => "undefined"
  | some v => jsToString v

/-- JS loose comparison `a >= n` restricted to numbers: per the wire protocol
the status codes compared by the store are JSON numbers, so numeric string
coercion is not modelled (a non-number compares false, as NaN would). -/
def jsGE : Option Json → Int → Bool
  | some (.num m), n => n ≤ m
  | _, _ => false

/-- JS strict equality `a === n` against a number literal. -/
def jsEqNum : Option Json → Int → Bool
  | some (.num m), n => m == n
  | _, _ => false

/- String primitives.  These are defined by structural recursion over the
character list of the string so that every concrete instance reduces inside
the kernel; they implement the same semantics as the JS string methods used
by the source (split on a non-empty separator, startsWith, slice, prefix
test). -/

/-- Splitting worker: fuel-indexed structural recursion; fuel equal to the
length of the input plus one is always sufficient since every step consumes
at least one character. -/
def splitOnAux (sep : List Char) : Nat → List Char → List Char → List (List Char)
  | _, [], acc => [acc.reverse]
  | 0, _ :: _, acc => [acc.reverse]
  | fuel + 1, c :: rest, acc =>
    if sep.isPrefixOf (c :: rest) then
      acc.reverse :: splitOnAux sep fuel ((c :: rest).drop sep.length) []
    else
      splitOnAux sep fuel rest (c :: acc)

/-- JS `s.split(sep)` for a non-empty string separator: the list of maximal
chunks between non-overlapping left-to-right occurrences of the separator. -/
def strSplitOn (s sep : String) : List String :=
  if sep.data = [] then [s]
  else (splitOnAux sep.data (s.data.length + 1) s.data []).map (fun cs => String.mk cs)

/-- JS `s.startsWith(pre)`. -/
def strStartsWith (s pre : String) : Bool :=
  pre.data.isPrefixOf s.data

/-- JS `s.slice(n)` (ASCII inputs: character count equals UTF-16 length). -/
def strDrop (s : String) (n : Nat) : String :=
  String.mk (s.data.drop n)

/-- Prefix test between two buffers (used only to state the incremental
growth side condition of the spec). -/
def strIsPrefixOf (a b : String) : Bool :=
  a.data.isPrefixOf b.data

/-- Shallow embedding of resolveDataSource
(src/frontend/components/HybridRenderer.tsx lines 61-75).  The data source
attribute is split on every occurrence of the namespace separator; anything
other than exactly two parts resolves to null; otherwise the namespace and
then the key are looked up, a falsy namespace value and an absent or null
key value resolving to null. -/
def resolveDataSource (dataContext : Json) (dataSource : Option String) : Json :=
  match dataSource with
  | none => .null
  | some ds =>
    if ds = "" then .null
    else
      match strSplitOn ds "::" with
      | [ns, key] =>
        let namespaceData := (jsGet dataContext ns).getD .null
        if jsFalsy namespaceData then .null
        else
          match jsGet namespaceData key with
          | none => .null
          | some .null => .null
          | some v => v
      | _ => .null

/-- Shallow embedding of parseConfig (HybridRenderer.tsx lines 77-84): a
falsy config attribute or a JSON parse failure yields the empty object.  The
host JSON.parse is passed in as a capability. -/
def parseConfig (parseJson : String → Except String Json) (configString : Option String) : Json :=
  match configString with
  | none => .obj []
  | some s =>
    if s = "" then .obj []
    else
      match parseJson s with
      | .ok j => j
      | .error _ => .obj []

/- Stream state store (src/frontend/stores/stream.ts). -/

/-- Entry of the thinkingMessages list.  Option Json models a possibly
undefined JS value; Date.now() is modelled by a monotone tick supplied by
the event loop. -/
structure ThinkingMessage where
  msgType : Option Json
  message : Option Json
  timestamp : Nat
  deriving Repr

/-- Entry of the toolCalls list (name/args/result/statusCode/detail as
assigned by the tool_call and tool_result handlers; none models a JS
undefined field). -/
structure ToolCall where
  name : Option Json
  args : Option Json
  result : Option Json
  statusCode : Option Json
  detail : Option Json
  timestamp : Nat
  deriving Repr

/-- The observable session state held by the zustand store (stream.ts lines
4-18 and 22-30).  error none models the initial null. -/
structure StoreState where
  isStreaming : Bool
  dataContext : Json
  htmlContent : String
  rawResponse : String
  error : Option Json
  currentQuery : String
  thinkingMessages : List ThinkingMessage
  toolCalls : List ToolCall
  deriving Repr

/-- Initial store state (stream.ts lines 23-30). -/
def initialState : StoreState :=
  { isStreaming := false, dataContext := .obj [], htmlContent := "",
    rawResponse := "", error := none, currentQuery := "",
    thinkingMessages := [], toolCalls := [] }

/-- State reset performed at the top of startStream (stream.ts lines 33-42). -/
def startStreamInit (query : String) (s : StoreState) : StoreState :=
  { s with isStreaming := true, dataContext := .obj [], htmlContent := "",
           rawResponse := "", error := none, currentQuery := query,
           thinkingMessages := [], toolCalls := [] }

/-- State update performed at the top of refineStream (stream.ts lines
190-206): with no rawResponse only an error is set; otherwise the buffers
and logs are cleared while dataContext is preserved. -/
def refineStreamInit (query : String) (s : StoreState) : StoreState :=
  if s.rawResponse = "" then
    { s with error := some (.str "No UI to refine") }
  else
    { s with isStreaming := true, htmlContent := "", rawResponse := "",
             error := none, currentQuery := query,
             thinkingMessages := [], toolCalls := [] }

/-- The reset action (stream.ts lines 177-188). -/
def resetState (s : StoreState) : StoreState :=
  { s with isStreaming := false, dataContext := .obj [], htmlContent := "",
           rawResponse := "", error := none, currentQuery := "",
           thinkingMessages := [], toolCalls := [] }

/-- In-place update of the last element of a list, as the tool_result
handler does to the most recent pending call (a copy of the array with the
last record mutated); the empty list is left unchanged. -/
def updateLast {α : Type} (f : α → α) : List α → List α
  | [] => []
  | [x] => [f x]
  | x :: y :: xs => x :: updateLast f (y :: xs)

/-- The update applied to the most recent pending tool call by the
tool_result handler (stream.ts lines 103-125): the status code is the first
truthy of status_code or statusCode or status, the raw result message the
first truthy of message or result or detail or the literal ok, and the
displayed summary depends on the status code exactly as in the source. -/
def applyToolResult (data : Json) (lastCall : ToolCall) : ToolCall :=
  let statusCode := jsOr (jsGet data "status_code") (jsOr (jsGet data "statusCode") (jsGet data "status"))
  let resultMessage := jsOr (jsGet data "message") (jsOr (jsGet data "result") (jsOr (jsGet data "detail") (some (.str "ok"))))
  let displayMessage :=
    if jsEqNum statusCode 200 then
      some (.str (jsToStringU lastCall.name ++ " ok"))
    else if jsEqNum statusCode 401 || jsEqNum statusCode 403 then
      some (.str "unauthorized, using sample data")
    else if jsTruthyO statusCode && jsGE statusCode 400 then
      some (.str (jsToStringU resultMessage ++ " (" ++ jsToStringU statusCode ++ ")"))
    else resultMessage
  { lastCall with result := displayMessage, statusCode := statusCode,
                  detail := jsOr (jsGet data "detail") (jsOr (jsGet data "message") resultMessage) }

/-- The event switch executed for each decoded (event, data) pair
(stream.ts lines 80-158).  now is the Date.now() tick for appended records;
an event name matching no case (including the empty name) leaves the state
unchanged. -/
def dispatchEvent (now : Nat) (eventName : String) (data : Json) (s : StoreState) : StoreState :=
  if eventName = "data" then { s with dataContext := data }
  else if eventName = "thinking" then
    { s with thinkingMessages := s.thinkingMessages ++
        [{ msgType := jsOr (jsGet data "type") (some (.str "thinking")),
           message := jsOr (jsGet data "message") (jsOr (jsGet data "content") (some (.str ""))),
           timestamp := now }] }
  else if eventName = "tool_call" then
    { s with toolCalls := s.toolCalls ++
        [{ name := jsOr (jsGet data "name") (some (.str "")),
           args := jsGet data "args",
           result := none, statusCode := none, detail := none,
           timestamp := now }] }
  else if eventName = "tool_result" then
    { s with toolCalls := updateLast (applyToolResult data) s.toolCalls }
  else if eventName = "ui" then
    let wasEmpty := s.htmlContent = ""
    let content := jsGet data "content"
    let s1 := { s with htmlContent := s.htmlContent ++ jsToStringU content,
                       rawResponse := s.rawResponse ++ jsToStringU content }
    if wasEmpty ∧ jsTruthyO content then
      { s1 with thinkingMessages := s1.thinkingMessages ++
          [{ msgType := some (.str "status"), message := some (.str "Generating UI..."),
             timestamp := now }] }
    else s1
  else if eventName = "status" then
    { s with thinkingMessages := s.thinkingMessages ++
        [{ msgType := some (.str "status"), message := jsGet data "message",
           timestamp := now }] }
  else if eventName = "error" then { s with error := jsGet data "message", isStreaming := false }
  else if eventName = "done" then { s with isStreaming := false }
  else s

/-- State of the line-processing loop: the store, the pending event name
(currentEvent) and the modelled Date.now() tick. -/
structure LoopState where
  store : StoreState
  currentEvent : String
  time : Nat
  deriving Repr

/-- One iteration of the line loop (stream.ts lines 70-162).  An event line
sets currentEvent; a data line parses its body with the host JSON.parse
(passed as a capability returning the thrown message on failure), then
dispatches the pair and clears currentEvent; other lines are ignored.  A
parse failure is the exception that propagates to the catch handler. -/
def processLine (parseJson : String → Except String Json) (ls : LoopState) (line : String) :
    Except String LoopState :=
  if strStartsWith line "event: " then
    .ok { ls with currentEvent := strDrop line 7 }
  else if strStartsWith line "data: " then
    match parseJson (strDrop line 6) with
    | .error e => .error e
    | .ok data =>
      .ok { store := dispatchEvent ls.time ls.currentEvent data ls.store,
            currentEvent := "", time := ls.time + 1 }
  else .ok ls

/-- The line loop over the complete lines of one chunk; an exception stops
the loop, returning the state reached so far together with the message. -/
def processLines (parseJson : String → Except String Json) :
    List String → LoopState → LoopState × Option String
  | [], ls => (ls, none)
  | line :: rest, ls =>
    match processLine parseJson ls line with
    | .error e => (ls, some e)
    | .ok ls2 => processLines parseJson rest ls2

/-- Chunk-loop state: the line-loop state plus the pending partial line
carried across chunk boundaries. -/
structure ChunkLoopState where
  loop : LoopState
  buffer : String
  deriving Repr

/-- One chunk arrival (stream.ts lines 62-68 and the inner line loop): the
pending buffer is extended, split on newlines, the trailing partial line
becomes the new buffer and the complete lines are processed in order. -/
def processChunk (parseJson : String → Except String Json) (cs : ChunkLoopState) (chunk : String) :
    ChunkLoopState × Option String :=
  let lines := strSplitOn (cs.buffer ++ chunk) "\n"
  let buffer := (lines.getLast?).getD ""
  let complete := lines.dropLast
  match processLines parseJson complete cs.loop with
  | (ls, none) => ({ loop := ls, buffer := buffer }, none)
  | (ls, some e) => ({ loop := ls, buffer := buffer }, some e)

/-- The chunk loop: chunks are consumed in order until exhaustion or until
an exception escapes a line iteration. -/
def runChunks (parseJson : String → Except String Json) :
    List String → ChunkLoopState → ChunkLoopState × Option String
  | [], cs => (cs, none)
  | chunk :: rest, cs =>
    match processChunk parseJson cs chunk with
    | (cs2, none) => runChunks parseJson rest cs2
    | (cs2, some e) => (cs2, some e)

/-- The state updates performed by startStream (stream.ts lines 32-175) for
a session whose opened response body delivers the given chunks: the initial
reset, the chunk loop, then either the final isStreaming clear (line 165)
or the catch handler (lines 166-174), which records the thrown message as
the session error and marks the stream inactive.  The trailing partial line
left in the buffer at stream end is never processed. -/
def startStreamModel (parseJson : String → Except String Json) (query : String)
    (chunks : List String) (s0 : StoreState) : StoreState :=
  let init : ChunkLoopState :=
    { loop := { store := startStreamInit query s0, currentEvent := "", time := 0 },
      buffer := "" }
  match runChunks parseJson chunks init with
  | (cs, none) => { cs.loop.store with isStreaming := false }
  | (cs, some e) => { cs.loop.store with error := some (.str e), isStreaming := false }

/-- One externally observable store operation: the public actions of the
store together with the per-event updates and the terminal transitions of
either streaming loop (refineStream dispatches events through the same
switch; its error and done cases additionally invoke toast helpers, which
do not touch the buffers). -/
inductive StoreOp where
  | startInit (query : String)
  | refineInit (query : String)
  | resetOp
  | event (now : Nat) (name : String) (payload : Json)
  | streamEnd
  | catchError (msg : String)

/-- Application of one store operation. -/
def applyOp (s : StoreState) : StoreOp → StoreState
  | .startInit q => startStreamInit q s
  | .refineInit q => refineStreamInit q s
  | .resetOp => resetState s
  | .event now name payload => dispatchEvent now name payload s
  | .streamEnd => { s with isStreaming := false }
  | .catchError m => { s with error := some (.str m), isStreaming := false }

/-- A sequence of store operations applied to the initial state. -/
def runOps (ops : List StoreOp) : StoreState :=
  ops.foldl applyOp initialState

/- HybridRenderer reconciliation engine
(src/frontend/components/HybridRenderer.tsx). -/

/-- A live or candidate DOM node.  objId is the reference identity of an
element object: two element values denote the very same DOM object exactly
when their objId agree, and freshly created or cloned elements receive
identifiers never used before.  Tag names are stored lowercase (the
COMPONENT-SLOT nodeName test and the component-slot selector match the same
elements). -/
inductive DomNode where
  | elem (tag : String) (attrs : List (String × String)) (objId : Nat) (children : List DomNode)
  | text (s : String)
  deriving Repr

/-- getAttribute: none models the null returned for an absent attribute. -/
def DomNode.getAttr : DomNode → String → Option String
  | .elem _ attrs _ _, name => (attrs.find? (fun a => a.1 = name)).map (fun a => a.2)
  | .text _, _ => none

/-- Object identity of an element (0 for text nodes, which carry none). -/
def DomNode.oid : DomNode → Nat
  | .elem _ _ o _ => o
  | .text _ => 0

/-- Shallow embedding of generateSlotId (HybridRenderer.tsx lines 55-59):
the identity is the type attribute (falsy, that is absent or empty, giving
unknown) joined to the data-source attribute (absent giving the empty
string) by a double colon. -/
def generateSlotId (slot : DomNode) : String :=
  let ty := match slot.getAttr "type" with
    | some t => if t = "" then "unknown" else t
    | none => "unknown"
  let ds := (slot.getAttr "data-source").getD ""
  ty ++ "::" ++ ds

/-- Class-token test of a CSS class selector: the class attribute, split on
spaces, contains the token. -/
def hasClass (n : DomNode) (c : String) : Bool :=
  match n.getAttr "class" with
  | some s => (strSplitOn s " ").contains c
  | none => false

mutual
/-- All elements of a subtree carrying a data-slot-id attribute, paired with
that attribute value, in document order (the index that the morphdom
getNodeKey option of HybridRenderer.tsx lines 301-308 keys elements by). -/
def keyedElems : DomNode → List (String × DomNode)
  | .text _ => []
  | .elem tag attrs oid children =>
    (match (DomNode.elem tag attrs oid children).getAttr "data-slot-id" with
     | some k => [(k, DomNode.elem tag attrs oid children)]
     | none => []) ++ keyedElemsList children

def keyedElemsList : List DomNode → List (String × DomNode)
  | [] => []
  | n :: ns => keyedElems n ++ keyedElemsList ns
end

/-- The existing-wrapper map built before the diff (HybridRenderer.tsx lines
285-289): elements matching .hybrid-slot[data-slot-id] in document order,
entered into a map keyed by the attribute value when it is truthy, a later
entry overwriting an earlier one. -/
def wrapperMapEntries (container : List DomNode) : List (String × DomNode) :=
  (keyedElemsList container).filter (fun kv => decide (kv.1 ≠ "") && hasClass kv.2 "hybrid-slot")

/-- Lookup in a last-wins map built from an association list. -/
def lookupLast (k : String) (l : List (String × DomNode)) : Option DomNode :=
  ((l.filter (fun kv => kv.1 = k)).getLast?).map (fun kv => kv.2)

/-- First entry for a key in an association list (the match the tree walk
finds first). -/
def lookupFirst (k : String) (l : List (String × DomNode)) : Option DomNode :=
  (l.find? (fun kv => kv.1 = k)).map (fun kv => kv.2)

mutual
/-- cloneNode(true): a structural copy whose every element receives a fresh
object identifier, allocated upward from the given counter; returns the
clone and the next unused counter. -/
def cloneReId : DomNode → Nat → DomNode × Nat
  | .text s, f => (.text s, f)
  | .elem t a _ cs, f =>
    let r := cloneReIdList cs (f + 1)
    (.elem t a f r.1, r.2)

def cloneReIdList : List DomNode → Nat → List DomNode × Nat
  | [], f => ([], f)
  | n :: ns, f =>
    let r := cloneReId n f
    let rs := cloneReIdList ns r.2
    (r.1 :: rs.1, rs.2)
end

mutual
/-- The pre-diff substitution pass (HybridRenderer.tsx lines 291-297): every
component-slot element of the candidate tree whose identity has an entry in
the existing-wrapper map is replaced with a clone of that wrapper (slots
nested below a replaced slot are detached with it). -/
def substSlots (wrappers : List (String × DomNode)) (fresh : Nat) :
    DomNode → DomNode × Nat
  | .text s => (.text s, fresh)
  | .elem tag attrs oid children =>
    if tag = "component-slot" then
      match lookupLast (generateSlotId (.elem tag attrs oid children)) wrappers with
      | some w => cloneReId w fresh
      | none =>
        let r := substSlotsList wrappers fresh children
        (.elem tag attrs oid r.1, r.2)
    else
      let r := substSlotsList wrappers fresh children
      (.elem tag attrs oid r.1, r.2)

def substSlotsList (wrappers : List (String × DomNode)) (fresh : Nat) :
    List DomNode → List DomNode × Nat
  | [] => ([], fresh)
  | n :: ns =>
    let r := substSlots wrappers fresh n
    let rs := substSlotsList wrappers r.2 ns
    (r.1 :: rs.1, rs.2)
end

mutual
/-- Model of the morphdom patch configured at HybridRenderer.tsx lines
299-321: getNodeKey keys elements by their data-slot-id attribute; a
candidate element whose key is found among the keyed elements of the live
tree is matched with that live element, and because onBeforeElUpdated
returns false for keyed elements the live element is adopted wholly
untouched; unkeyed candidate structure replaces the corresponding live
structure. -/
def morphTransform (fromIndex : List (String × DomNode)) : DomNode → DomNode
  | .text s => .text s
  | .elem t a oid cs =>
    match (DomNode.elem t a oid cs).getAttr "data-slot-id" with
    | some k =>
      match lookupFirst k fromIndex with
      | some fromEl => fromEl
      | none => .elem t a oid (morphTransformList fromIndex cs)
    | none => .elem t a oid (morphTransformList fromIndex cs)

def morphTransformList (fromIndex : List (String × DomNode)) : List DomNode → List DomNode
  | [] => []
  | n :: ns => morphTransform fromIndex n :: morphTransformList fromIndex ns
end

/-- Model of the full morphdom call (childrenOnly): the container children
become the transformed candidate children, and because onBeforeNodeDiscarded
returns false for keyed elements, every keyed live element whose key does
not occur in the result is retained rather than discarded. -/
def morphdomModel (container candidate : List DomNode) : List DomNode :=
  let fromIndex := keyedElemsList container
  let merged := morphTransformList fromIndex candidate
  let mergedKeys := (keyedElemsList merged).map (fun kv => kv.1)
  merged ++ (fromIndex.filter (fun kv => !(mergedKeys.contains kv.1))).map (fun kv => kv.2)

/-- The number of closing component-slot tags in a buffer, as computed by
the global regex match at HybridRenderer.tsx line 268. -/
def countClosingTags (html : String) : Nat :=
  (strSplitOn html "</component-slot>").length - 1

/-- The mutable state held by the HybridRenderer instance across passes:
the container children, the rootsRef map from slot identity to the object
identity of its React root, the mountedSlotsRef set, the
lastClosingTagCountRef counter, the isReady flag, the hydration log (stage
and message of each onLog call; payload data is not modelled), a fresh
object-id counter for created nodes and roots, and the list of root object
identities that have been unmounted. -/
structure RendererState where
  container : List DomNode
  roots : List (String × Nat)
  mountedSlots : List String
  lastClosingTagCount : Nat
  isReady : Bool
  hlog : List (String × String)
  nextId : Nat
  unmounted : List Nat
  deriving Repr

/-- Map.set on the rootsRef association list: overwrite an existing entry
for the key, otherwise append. -/
def setAssoc (m : List (String × Nat)) (k : String) (v : Nat) : List (String × Nat) :=
  if m.any (fun kv => kv.1 = k) then
    m.map (fun kv => if kv.1 = k then (k, v) else kv)
  else m ++ [(k, v)]

/-- Map.get on the rootsRef association list. -/
def getAssoc (m : List (String × Nat)) (k : String) : Option Nat :=
  (m.find? (fun kv => kv.1 = k)).map (fun kv => kv.2)

mutual
/-- replaceWith: substitute the replacement for the element with the given
object identity wherever it occurs in the tree. -/
def replaceNode (target : Nat) (repl : DomNode) : DomNode → DomNode
  | .text s => .text s
  | .elem t a oid cs =>
    if oid = target then repl
    else .elem t a oid (replaceNodeList target repl cs)

def replaceNodeList (target : Nat) (repl : DomNode) : List DomNode → List DomNode
  | [] => []
  | n :: ns => replaceNode target repl n :: replaceNodeList target repl ns
end

/-- Shallow embedding of mountComponent (HybridRenderer.tsx lines 131-198).
A falsy type attribute only logs; an unknown type logs and replaces the
slot by an inert placeholder div; otherwise data is resolved, config
parsed, a wrapper div carrying the slot identity replaces the slot, a React
root is created on the wrapper and recorded in rootsRef, and the widget is
rendered into it.  The component registry is the list of registered type
names (src/frontend/components/registry.ts). -/
def mountComponent (registry : List String) (parseJson : String → Except String Json)
    (ctx : Json) (s : RendererState) (slot : DomNode) (slotId : String) : RendererState :=
  let componentType := match slot.getAttr "type" with
    | none => none
    | some t => if t = "" then none else some t
  match componentType with
  | none =>
    { s with hlog := s.hlog ++ [("mount", "Skipping slot: no component type specified")] }
  | some cty =>
    if !(registry.contains cty) then
      { s with
        hlog := s.hlog ++ [("mount", "Unknown component type: " ++ cty)],
        container := replaceNodeList slot.oid (.elem "div" [("class", "h-8")] s.nextId []) s.container,
        nextId := s.nextId + 1 }
    else
      let _data := resolveDataSource ctx (slot.getAttr "data-source")
      let _config := parseConfig parseJson (slot.getAttr "config")
      let wrapper : DomNode :=
        .elem "div" [("class", "hybrid-slot"), ("data-slot-id", slotId)] s.nextId []
      { s with
        hlog := s.hlog ++ [("resolve", "Data resolved for " ++ cty),
                           ("mount", "Mounting " ++ cty)],
        container := replaceNodeList slot.oid wrapper s.container,
        roots := setAssoc s.roots slotId (s.nextId + 1),
        nextId := s.nextId + 2 }

/-- The mount guard of the MutationObserver callback (HybridRenderer.tsx
lines 228-245): a slot whose identity is already in the mounted set is left
alone; otherwise it is mounted and its identity added to the set. -/
def guardMount (registry : List String) (parseJson : String → Except String Json)
    (ctx : Json) (s : RendererState) (slot : DomNode) : RendererState :=
  let slotId := generateSlotId slot
  if s.mountedSlots.contains slotId then s
  else
    let s2 := mountComponent registry parseJson ctx s slot slotId
    { s2 with mountedSlots := s2.mountedSlots ++ [slotId] }

mutual
/-- The component-slot elements of a subtree including the root, in document
order (the union of the direct nodeName test and the recursive
querySelectorAll detection of the observer callback). -/
def slotsIn : DomNode → List DomNode
  | .text _ => []
  | .elem t a oid cs =>
    (if t = "component-slot" then [DomNode.elem t a oid cs] else []) ++ slotsInList cs

def slotsInList : List DomNode → List DomNode
  | [] => []
  | n :: ns => slotsIn n ++ slotsInList ns
end

/-- Processing of one added node by the MutationObserver callback
(HybridRenderer.tsx lines 221-247): non-element nodes are skipped; an added
component-slot and every component-slot nested below the added node pass
through the mount guard. -/
def observerProcessNode (registry : List String) (parseJson : String → Except String Json)
    (ctx : Json) (s : RendererState) (node : DomNode) : RendererState :=
  match node with
  | .text _ => s
  | .elem t a oid cs =>
    let s1 := if t = "component-slot"
      then guardMount registry parseJson ctx s (.elem t a oid cs) else s
    (slotsInList cs).foldl (guardMount registry parseJson ctx) s1

/-- One observer callback over the added nodes of a mutation batch,
followed by the isReady update (HybridRenderer.tsx lines 249-251). -/
def observerPass (registry : List String) (parseJson : String → Except String Json)
    (ctx : Json) (added : List DomNode) (s : RendererState) : RendererState :=
  let s2 := added.foldl (observerProcessNode registry parseJson ctx) s
  if s2.mountedSlots.length > 0 then { s2 with isReady := true } else s2

/-- Shallow embedding of cleanupRoots (HybridRenderer.tsx lines 200-214),
run only from the observer-effect teardown on renderer unmount: the roots
map and the mounted set are cleared and every held root is unmounted once
(the deferred microtask and the guard for an already-released root do not
change which roots are unmounted). -/
def cleanupRoots (s : RendererState) : RendererState :=
  { s with roots := [], mountedSlots := [],
           unmounted := s.unmounted ++ s.roots.map (fun kv => kv.2) }

/-- Shallow embedding of the htmlContent effect (HybridRenderer.tsx lines
265-327), one reconciliation pass over a new markup buffer.  sanParse is
the composition of the external DOMPurify.sanitize call (with the
component-slot allow-list) and HTML parsing into the children of the
temporary div.  An empty buffer returns immediately; a buffer whose closing
tag count equals the recorded count while slots are mounted is skipped
entirely; otherwise the count is recorded, the buffer sanitized and parsed,
mounted wrappers substituted into the candidate, and the morphdom patch
applied to the container children. -/
def htmlContentEffect (sanParse : String → List DomNode) (s : RendererState)
    (htmlContent : String) : RendererState :=
  if htmlContent = "" then s
  else
    let closingTagCount := countClosingTags htmlContent
    if closingTagCount = s.lastClosingTagCount ∧ s.mountedSlots.length > 0 then s
    else
      let tempDiv := sanParse htmlContent
      let r := substSlotsList (wrapperMapEntries s.container) s.nextId tempDiv
      { s with
        lastClosingTagCount := closingTagCount,
        hlog := s.hlog ++ [("parse", "Processing HTML"), ("sanitize", "Sanitizing HTML"),
                           ("detect", "Processing complete")],
        container := morphdomModel s.container r.1,
        nextId := r.2 }

/-- The registered widget type names (src/frontend/components/registry.ts). -/
def componentRegistryNames : List String :=
  ["List", "Card", "Chart", "Grid", "Timeline", "Table", "Clickable"]

/- Interaction dispatcher (HybridRenderer.tsx lines 158-167). -/

/-- The partial payload a widget passes to its callback: Omit of
InteractionPayload (src/frontend/components/types.ts) without componentType
and interaction, that is clickPrompt (none models null), slotId and
clickedData. -/
structure PartialPayload where
  clickPrompt : Option String
  slotId : String
  clickedData : Json
  deriving Repr

/-- The payload object the dispatcher forwards to the external caller:
componentType and interaction (the interaction attribute of the slot, none
models null) together with the fields of the partial payload. -/
structure FullInteractionPayload where
  componentType : String
  interaction : Option String
  clickPrompt : Option String
  slotId : String
  clickedData : Json
  deriving Repr

/-- Shallow embedding of the handleInteraction closure created by
mountComponent (HybridRenderer.tsx lines 158-167): one invocation forwards
exactly one (type, payload) pair to the external onInteraction callback,
the payload being the object spread of componentType and interaction
(captured from the enclosing slot) with the partial payload supplied by the
widget. -/
def handleInteraction (componentType : String) (interaction : Option String)
    (ty : String) (payload : PartialPayload) : String × FullInteractionPayload :=
  (ty, { componentType := componentType, interaction := interaction,
         clickPrompt := payload.clickPrompt, slotId := payload.slotId,
         clickedData := payload.clickedData })

/- Derived notions used to state the properties. -/

/-- Concatenation of a list of strings in order. -/
def strJoin : List String → String
  | [] => ""
  | x :: xs => x ++ strJoin xs

/-- A decoded event as fed to the switch: the Date.now() tick, the event
name and the parsed payload. -/
abbrev DecodedEvent := Nat × String × Json

/-- Folding a sequence of decoded events through the event switch. -/
def runEvents (evs : List DecodedEvent) (s : StoreState) : StoreState :=
  evs.foldl (fun st e => dispatchEvent e.1 e.2.1 e.2.2 st) s

/-- The strings the ui handler appends for the ui events of a sequence, in
arrival order (the JS string coercion of each content field). -/
def uiContents (evs : List DecodedEvent) : List String :=
  evs.filterMap (fun e => if e.2.1 = "ui" then some (jsToStringU (jsGet e.2.2 "content")) else none)

/-- The content fields of the ui events of a well-formed sequence, in
arrival order. -/
def uiContentStrs (evs : List DecodedEvent) : List String :=
  evs.filterMap (fun e =>
    if e.2.1 = "ui" then
      match jsGet e.2.2 "content" with
      | some (.str c) => some c
      | _ => none
    else none)

/-- The payload of the last data event of a sequence, if any. -/
def lastData : List DecodedEvent → Option Json
  | [] => none
  | e :: rest =>
    match lastData rest with
    | some j => some j
    | none => if e.2.1 = "data" then some e.2.2 else none

/-- The identities of the binding elements present in a candidate tree. -/
def slotIds (l : List DomNode) : List String :=
  (slotsInList l).map generateSlotId

/- Concrete fixtures used by the closed theorems below. -/

/-- A concrete stand-in for the host JSON.parse, agreeing with it on every
input it is applied to: the two well-formed bodies used below parse to
their JSON values, anything else (in particular the body nope) is not valid
JSON and throws. -/
def parseStub : String → Except String Json
  | "[1]" => .ok (.arr [.num 1])
  | "[2]" => .ok (.arr [.num 2])
  | _ => .error "Unexpected token"

/-- Store state with a single pending tool call named fetchSpotify. -/
def c7ExState : StoreState :=
  { initialState with toolCalls :=
      [{ name := some (.str "fetchSpotify"), args := none, result := none,
         statusCode := none, detail := none, timestamp := 0 }] }

/-- Data context holding sports.teams as a one-element array whose element
0 has a wins field. -/
def c4Ctx : Json :=
  .obj [("sports", .obj [("teams", .arr [.obj [("wins", .num 12)]])])]

/-- A mounted wrapper div for the slot identity List::music::top, object
identity 3. -/
def c2Wrapper : DomNode :=
  .elem "div" [("class", "hybrid-slot"), ("data-slot-id", "List::music::top")] 3 []

/-- Renderer state with the List::music::top slot mounted: its wrapper in
the container, its React root (object identity 4) in the roots map, one
closing tag recorded from the previously processed buffer. -/
def c2State : RendererState :=
  { container := [c2Wrapper], roots := [("List::music::top", 4)],
    mountedSlots := ["List::music::top"], lastClosingTagCount := 1,
    isReady := true, hlog := [], nextId := 10, unmounted := [] }

/-- A concrete stand-in for the sanitize-and-parse capability on the single
replacement buffer used below: plain markup with no binding element. -/
def c2SanParse : String → List DomNode
  | "<p>replaced</p>" => [.elem "p" [] 20 [.text "replaced"]]
  | _ => []

/-- Renderer state with one mounted slot and one recorded closing tag, used
for the skip-guard theorem. -/
def c8State : RendererState :=
  { container := [.elem "div" [("class", "hybrid-slot"), ("data-slot-id", "List::music::top")] 3 []],
    roots := [("List::music::top", 4)], mountedSlots := ["List::music::top"],
    lastClosingTagCount := 1, isReady := true, hlog := [], nextId := 10,
    unmounted := [] }

/-- A buffer that appends plain markup after the single already-closed
binding element, so its closing tag count is still one. -/
def c8Html : String :=
  "<component-slot type=\"List\" data-source=\"music::top\"></component-slot><div>more</div>"

/-- A binding element with a type, a data source and an interaction mode. -/
def c6Slot : DomNode :=
  .elem "component-slot"
    [("type", "List"), ("data-source", "music::top_songs"), ("interaction", "smart")] 1 []

/-- The previously processed buffer of the C1 scenario: one closed binding
element. -/
def c1OldHtml : String :=
  "<component-slot type=\"List\" data-source=\"music::top\"></component-slot>"

/-- The grown buffer of the C1 scenario: the old buffer plus appended plain
markup and a second binding element. -/
def c1Html : String :=
  "<component-slot type=\"List\" data-source=\"music::top\"></component-slot><p>hi</p><component-slot type=\"Card\" data-source=\"user::profile\"></component-slot>"

/-- The mounted wrapper of the C1 scenario, object identity 3. -/
def c1Wrapper : DomNode :=
  .elem "div" [("class", "hybrid-slot"), ("data-slot-id", "List::music::top")] 3 []

/-- Renderer state of the C1 scenario: the List::music::top slot mounted
with root object identity 4. -/
def c1State : RendererState :=
  { container := [c1Wrapper], roots := [("List::music::top", 4)],
    mountedSlots := ["List::music::top"], lastClosingTagCount := 1,
    isReady := true, hlog := [], nextId := 10, unmounted := [] }

/-- A concrete stand-in for the sanitize-and-parse capability of the C1
scenario: the grown buffer parses to the same binding element, the appended
paragraph and the new Card binding element. -/
def c1SanParse (h : String) : List DomNode :=
  if h = c1Html then
    [.elem "component-slot" [("type", "List"), ("data-source", "music::top")] 20 [],
     .elem "p" [] 21 [.text "hi"],
     .elem "component-slot" [("type", "Card"), ("data-source", "user::profile")] 22 []]
  else []

/- Helper lemmas. -/

theorem strStartsWith_data_not_event (b : String) :
    strStartsWith ("data: " ++ b) "event: " = false := rfl

theorem strStartsWith_data_data (b : String) :
    strStartsWith ("data: " ++ b) "data: " = true := by
  simp [strStartsWith, List.isPrefixOf_iff_prefix]

theorem strDrop_data (b : String) : strDrop ("data: " ++ b) 6 = b := rfl

theorem dispatchEvent_empty (now : Nat) (p : Json) (s : StoreState) :
    dispatchEvent now "" p s = s := rfl

theorem processLine_data (parseJson : String → Except String Json) (ls : LoopState) (b : String) :
    processLine parseJson ls ("data: " ++ b) =
      match parseJson b with
      | .error e => .error e
      | .ok d => .ok { store := dispatchEvent ls.time ls.currentEvent d ls.store,
                       currentEvent := "", time := ls.time + 1 } := by
  simp [processLine, strStartsWith_data_not_event, strStartsWith_data_data, strDrop_data]

theorem dispatchEvent_buffer_eq (now : Nat) (name : String) (p : Json) (s : StoreState)
    (h : s.htmlContent = s.rawResponse) :
    (dispatchEvent now name p s).htmlContent = (dispatchEvent now name p s).rawResponse := by
  unfold dispatchEvent
  split_ifs <;> simp [h] <;> split <;> rfl

theorem applyOp_buffer_eq (s : StoreState) (op : StoreOp)
    (h : s.htmlContent = s.rawResponse) :
    (applyOp s op).htmlContent = (applyOp s op).rawResponse := by
  cases op with
  | startInit q => simp [applyOp, startStreamInit]
  | refineInit q =>
    simp only [applyOp, refineStreamInit]
    split_ifs <;> simp [h]
  | resetOp => simp [applyOp, resetState]
  | event now name payload => exact dispatchEvent_buffer_eq now name payload s h
  | streamEnd => simpa [applyOp] using h
  | catchError m => simpa [applyOp] using h

/- Claim C9. -/

/-- C9: the store keeps htmlContent and rawResponse identical: they are
cleared together by startStream, refineStream and reset, every ui event
appends the same content string to both, and no other operation touches
them, so after any sequence of store operations applied to the initial
state the two buffers are equal. -/
theorem c9_buffers_identical (ops : List StoreOp) :
    (runOps ops).htmlContent = (runOps ops).rawResponse := by
  have main : ∀ (l : List StoreOp) (s : StoreState), s.htmlContent = s.rawResponse →
      (l.foldl applyOp s).htmlContent = (l.foldl applyOp s).rawResponse := by
    intro l
    induction l with
    | nil => intro s h; exact h
    | cons op rest ih => intro s h; exact ih (applyOp s op) (applyOp_buffer_eq s op h)
  exact main ops initialState rfl

/- Claim C10. -/

/-- C10: the decoder clears the current event type after dispatching each
data line, so of two consecutive data lines with no event line between
them, only the first produces a state update: the second is parsed but
dispatched with the empty event name, which matches no case and leaves the
store unchanged. -/
theorem c10_consecutive_data_lines (parseJson : String → Except String Json)
    (ls : LoopState) (b1 b2 : String) (j1 j2 : Json)
    (h1 : parseJson b1 = .ok j1) (h2 : parseJson b2 = .ok j2) :
    processLines parseJson ["data: " ++ b1, "data: " ++ b2] ls =
      ({ store := dispatchEvent ls.time ls.currentEvent j1 ls.store,
         currentEvent := "", time := ls.time + 2 }, none)
    ∧ ∀ (now : Nat) (p : Json) (s : StoreState), dispatchEvent now "" p s = s := by
  constructor
  · simp [processLines, processLine_data, h1, h2, dispatchEvent_empty]
  · intro now p s
    rfl

/-- Witness for C10 at a concrete two-line input. -/
theorem c10_witness :
    parseStub "[1]" = .ok (.arr [.num 1]) ∧ parseStub "[2]" = .ok (.arr [.num 2]) ∧
    processLines parseStub ["data: [1]", "data: [2]"]
        { store := initialState, currentEvent := "data", time := 0 } =
      ({ store := dispatchEvent 0 "data" (.arr [.num 1]) initialState,
         currentEvent := "", time := 2 }, none) := by
  refine ⟨rfl, rfl, ?_⟩
  exact (c10_consecutive_data_lines parseStub
    { store := initialState, currentEvent := "data", time := 0 }
    "[1]" "[2]" (.arr [.num 1]) (.arr [.num 2]) rfl rfl).1

/- Claim C5. -/

theorem dispatchEvent_ui_fields (now : Nat) (p : Json) (s : StoreState) :
    (dispatchEvent now "ui" p s).dataContext = s.dataContext
    ∧ (dispatchEvent now "ui" p s).htmlContent = s.htmlContent ++ jsToStringU (jsGet p "content")
    ∧ (dispatchEvent now "ui" p s).rawResponse = s.rawResponse ++ jsToStringU (jsGet p "content") := by
  refine ⟨?_, ?_, ?_⟩ <;> (simp [dispatchEvent]; split <;> rfl)

theorem runEvents_data_ui : ∀ (evs : List DecodedEvent) (s : StoreState),
    (∀ e ∈ evs, e.2.1 = "data" ∨ e.2.1 = "ui") →
    (runEvents evs s).dataContext = ((lastData evs).getD s.dataContext)
    ∧ (runEvents evs s).htmlContent = s.htmlContent ++ strJoin (uiContents evs) := by
  intro evs
  induction evs with
  | nil => intro s h; simp [runEvents, lastData, uiContents, strJoin]
  | cons e rest ih =>
    intro s h
    have he := h e (List.mem_cons_self _ _)
    have hrest : ∀ x ∈ rest, x.2.1 = "data" ∨ x.2.1 = "ui" :=
      fun x hx => h x (List.mem_cons_of_mem _ hx)
    have hfold : runEvents (e :: rest) s = runEvents rest (dispatchEvent e.1 e.2.1 e.2.2 s) := rfl
    rcases he with hd | hu
    · have hstep : dispatchEvent e.1 e.2.1 e.2.2 s = { s with dataContext := e.2.2 } := by
        rw [hd]
        rfl
      obtain ⟨ih1, ih2⟩ := ih ({ s with dataContext := e.2.2 }) hrest
      rw [hfold, hstep]
      constructor
      · rw [ih1]
        cases hl : lastData rest <;> simp [lastData, hd, hl]
      · rw [ih2]
        simp [uiContents, hd]
    · obtain ⟨hu1, hu2, _⟩ := dispatchEvent_ui_fields e.1 e.2.2 s
      rw [hu] at hfold
      obtain ⟨ih1, ih2⟩ := ih (dispatchEvent e.1 "ui" e.2.2 s) hrest
      constructor
      · rw [hfold, ih1, hu1]
        cases hl : lastData rest <;> simp [lastData, hu, hl]
      · rw [hfold, ih2, hu2]
        simp [uiContents, hu, strJoin, String.append_assoc]

theorem uiContents_eq_strs : ∀ (evs : List DecodedEvent),
    (∀ e ∈ evs, e.2.1 = "data" ∨ (e.2.1 = "ui" ∧ ∃ c, jsGet e.2.2 "content" = some (.str c))) →
    uiContents evs = uiContentStrs evs := by
  intro evs
  induction evs with
  | nil => intro h; rfl
  | cons e rest ih =>
    intro h
    have he := h e (List.mem_cons_self _ _)
    have hrest := fun x hx => h x (List.mem_cons_of_mem e hx)
    rcases he with hd | ⟨hu, c, hc⟩
    · have h1 : uiContents (e :: rest) = uiContents rest := by
        simp [uiContents, hd]
      have h2 : uiContentStrs (e :: rest) = uiContentStrs rest := by
        simp [uiContentStrs, hd]
      rw [h1, h2, ih hrest]
    · have h1 : uiContents (e :: rest) = jsToStringU (jsGet e.2.2 "content") :: uiContents rest := by
        simp [uiContents, hu]
      have h2 : uiContentStrs (e :: rest) = c :: uiContentStrs rest := by
        simp [uiContentStrs, hu, hc]
      rw [h1, h2, ih hrest, hc]
      simp [jsToStringU, jsToString]

/-- C5: for every well-formed sequence of data and ui events processed by
the stream state store (data payloads arbitrary JSON, ui payloads carrying
a string content field), the final StructuredDataContext equals the payload
of the last data event (the initial empty context when there is none), and
the final MarkupBuffer equals the concatenation, in arrival order, of the
content fields of all ui events. -/
theorem c5_data_ui_sequences (q : String) (s : StoreState) (evs : List DecodedEvent)
    (h : ∀ e ∈ evs, e.2.1 = "data" ∨ (e.2.1 = "ui" ∧ ∃ c, jsGet e.2.2 "content" = some (.str c))) :
    (runEvents evs (startStreamInit q s)).dataContext = ((lastData evs).getD (.obj []))
    ∧ (runEvents evs (startStreamInit q s)).htmlContent = strJoin (uiContentStrs evs) := by
  have h1 : ∀ e ∈ evs, e.2.1 = "data" ∨ e.2.1 = "ui" :=
    fun e he => (h e he).imp id And.left
  obtain ⟨hd, hh⟩ := runEvents_data_ui evs (startStreamInit q s) h1
  refine ⟨by simpa [startStreamInit] using hd, ?_⟩
  rw [hh, uiContents_eq_strs evs h]
  simp [startStreamInit]

/-- Witness for C5 at a concrete four-event sequence. -/
theorem c5_witness :
    (runEvents [(0, "data", .arr [.num 1]), (1, "ui", .obj [("content", .str "a")]),
                (2, "data", .arr [.num 2]), (3, "ui", .obj [("content", .str "b")])]
        (startStreamInit "top songs" initialState)).dataContext = .arr [.num 2]
    ∧ (runEvents [(0, "data", .arr [.num 1]), (1, "ui", .obj [("content", .str "a")]),
                  (2, "data", .arr [.num 2]), (3, "ui", .obj [("content", .str "b")])]
        (startStreamInit "top songs" initialState)).htmlContent = "ab" := by
  have h : ∀ e ∈ [((0 : Nat), "data", Json.arr [.num 1]), (1, "ui", Json.obj [("content", .str "a")]),
                  (2, "data", Json.arr [.num 2]), (3, "ui", Json.obj [("content", .str "b")])],
      e.2.1 = "data" ∨ (e.2.1 = "ui" ∧ ∃ c, jsGet e.2.2 "content" = some (.str c)) := by
    intro e he
    simp only [List.mem_cons, List.not_mem_nil, or_false] at he
    rcases he with rfl | rfl | rfl | rfl
    · left; rfl
    · right; exact ⟨rfl, "a", rfl⟩
    · left; rfl
    · right; exact ⟨rfl, "b", rfl⟩
  obtain ⟨h1, h2⟩ := c5_data_ui_sequences "top songs" initialState _ h
  exact ⟨h1, h2⟩

/- Claim C7. -/

theorem updateLast_append {α : Type} (f : α → α) :
    ∀ (pre : List α) (c : α), updateLast f (pre ++ [c]) = pre ++ [f c] := by
  intro pre
  induction pre with
  | nil => intro c; rfl
  | cons x xs ih =>
    intro c
    cases xs with
    | nil => rfl
    | cons y ys => simpa [updateLast] using ih c

/-- C7 counterexample: with a pending call named fetchSpotify, a
tool_result event with status 200 stores the summary string fetchSpotify
ok, not the string ok claimed; with status 401 it stores unauthorized,
using sample data, not unauthorized, fallback data. -/
theorem c7_counterexample :
    ((dispatchEvent 1 "tool_result" (.obj [("status_code", .num 200)]) c7ExState).toolCalls.map
        (fun c => c.result)) = [some (.str "fetchSpotify ok")]
    ∧ "fetchSpotify ok" ≠ "ok"
    ∧ ((dispatchEvent 1 "tool_result" (.obj [("status_code", .num 401)]) c7ExState).toolCalls.map
        (fun c => c.result)) = [some (.str "unauthorized, using sample data")]
    ∧ "unauthorized, using sample data" ≠ "unauthorized, fallback data" := by
  exact ⟨rfl, by decide, rfl, by decide⟩

/-- C7 amended: the tool_result handler updates the most recent pending
call; status 200 yields the summary string of the call name followed by ok,
status 401 or 403 yields unauthorized, using sample data, and any other
truthy status at least 400 yields the message followed by the
parenthesized code. -/
theorem c7_amended (now : Nat) (s : StoreState) (pre : List ToolCall) (call : ToolCall)
    (h : s.toolCalls = pre ++ [call]) :
    ((dispatchEvent now "tool_result" (.obj [("status_code", .num 200)]) s).toolCalls =
      pre ++ [{ call with
                result := some (.str (jsToStringU call.name ++ " ok")),
                statusCode := some (.num 200), detail := some (.str "ok") }])
    ∧ ((dispatchEvent now "tool_result" (.obj [("status_code", .num 401)]) s).toolCalls =
      pre ++ [{ call with
                result := some (.str "unauthorized, using sample data"),
                statusCode := some (.num 401), detail := some (.str "ok") }])
    ∧ ((dispatchEvent now "tool_result" (.obj [("status_code", .num 403)]) s).toolCalls =
      pre ++ [{ call with
                result := some (.str "unauthorized, using sample data"),
                statusCode := some (.num 403), detail := some (.str "ok") }])
    ∧ (∀ (n : Int) (msg : String), 400 ≤ n → n ≠ 401 → n ≠ 403 → msg ≠ "" →
      (dispatchEvent now "tool_result"
          (.obj [("status_code", .num n), ("message", .str msg)]) s).toolCalls =
        pre ++ [{ call with
                  result := some (.str (msg ++ " (" ++ toString n ++ ")")),
                  statusCode := some (.num n), detail := some (.str msg) }]) := by
  refine ⟨?_, ?_, ?_, ?_⟩
  · simp [dispatchEvent, h, updateLast_append, applyToolResult, jsGet, jsOr, jsTruthyO,
          jsFalsy, jsEqNum, jsGE, jsToStringU, jsToString]
  · simp [dispatchEvent, h, updateLast_append, applyToolResult, jsGet, jsOr, jsTruthyO,
          jsFalsy, jsEqNum, jsGE, jsToStringU, jsToString]
  · simp [dispatchEvent, h, updateLast_append, applyToolResult, jsGet, jsOr, jsTruthyO,
          jsFalsy, jsEqNum, jsGE, jsToStringU, jsToString]
  · intro n msg hn h401 h403 hmsg
    have e200 : (n == 200) = false := by simp; omega
    have e401 : (n == 401) = false := by simp [h401]
    have e403 : (n == 403) = false := by simp [h403]
    have e0 : (n == 0) = false := by simp; omega
    simp [dispatchEvent, h, updateLast_append, applyToolResult, jsGet, jsOr, jsTruthyO,
          jsFalsy, jsEqNum, jsGE, jsToStringU, jsToString, e200, e401, e403, e0, hn, hmsg]

/-- Witness for C7 amended at a concrete store state. -/
theorem c7_amended_witness :
    c7ExState.toolCalls = [] ++ [{ name := some (.str "fetchSpotify"), args := none,
                                   result := none, statusCode := none, detail := none,
                                   timestamp := 0 }]
    ∧ (dispatchEvent 1 "tool_result" (.obj [("status_code", .num 500), ("message", .str "boom")])
        c7ExState).toolCalls =
      [] ++ [{ name := some (.str "fetchSpotify"), args := none,
               result := some (.str ("boom" ++ " (" ++ toString (500 : Int) ++ ")")),
               statusCode := some (.num 500), detail := some (.str "boom"), timestamp := 0 }] := by
  refine ⟨rfl, ?_⟩
  exact (c7_amended 1 c7ExState []
    { name := some (.str "fetchSpotify"), args := none, result := none,
      statusCode := none, detail := none, timestamp := 0 } rfl).2.2.2
    500 "boom" (by omega) (by omega) (by omega) (by decide)

/- Claim C3. -/

/-- C3 counterexample: in a stream whose second line carries a body that is
not valid JSON, the decoder does not drop just that event and continue: the
whole loop aborts, the later well-formed data event is never applied (the
data context stays empty instead of becoming the array [2]), the session
error is set to the parse failure message and the stream is marked
inactive. -/
theorem c3_counterexample :
    (startStreamModel parseStub "q"
        ["event: data\ndata: nope\nevent: data\ndata: [2]\n"] initialState).dataContext =
      .obj []
    ∧ (startStreamModel parseStub "q"
        ["event: data\ndata: nope\nevent: data\ndata: [2]\n"] initialState).error =
      some (.str "Unexpected token")
    ∧ (startStreamModel parseStub "q"
        ["event: data\ndata: nope\nevent: data\ndata: [2]\n"] initialState).isStreaming = false
    ∧ parseStub "nope" = .error "Unexpected token"
    ∧ parseStub "[2]" = .ok (.arr [.num 2])
    ∧ Json.obj [] ≠ Json.arr [.num 2] := by
  refine ⟨rfl, rfl, rfl, rfl, rfl, ?_⟩
  intro hcontra
  exact Json.noConfusion hcontra

/-- C3 amended, part of the statement: aborting the line loop at the first
malformed data line. -/
theorem processLines_malformed_aborts (parseJson : String → Except String Json) :
    ∀ (pre : List String) (rest : List String) (body e : String) (ls : LoopState),
      (processLines parseJson pre ls).2 = none →
      parseJson body = .error e →
      processLines parseJson (pre ++ ("data: " ++ body) :: rest) ls =
        ((processLines parseJson pre ls).1, some e) := by
  intro pre
  induction pre with
  | nil =>
    intro rest body e ls _ hb
    simp [processLines, processLine_data, hb]
  | cons line pre2 ih =>
    intro rest body e ls hok hb
    rcases hline : processLine parseJson ls line with e2 | ls2
    · rw [show processLines parseJson (line :: pre2) ls = (ls, some e2) by
        simp [processLines, hline]] at hok
      simp at hok
    · have hok2 : (processLines parseJson pre2 ls2).2 = none := by
        rw [show processLines parseJson (line :: pre2) ls = processLines parseJson pre2 ls2 by
          simp [processLines, hline]] at hok
        exact hok
      have := ih rest body e ls2 hok2 hb
      simp only [List.cons_append, processLines, hline]
      exact this

/-- C3 amended: a data line whose body is not valid JSON aborts the
stream-processing loop through the catch handler: the lines after it (and
all later chunks) are dropped, the session error is set to the thrown parse
failure message, and isStreaming becomes false.  Stated as: the line loop
stops at the malformed line with the state reached so far; an aborted chunk
stops the chunk loop; and an aborted chunk loop makes startStream record
the message as the session error with the stream inactive. -/
theorem c3_amended :
    (∀ (parseJson : String → Except String Json) (pre rest : List String)
        (body e : String) (ls : LoopState),
      (processLines parseJson pre ls).2 = none →
      parseJson body = .error e →
      processLines parseJson (pre ++ ("data: " ++ body) :: rest) ls =
        ((processLines parseJson pre ls).1, some e))
    ∧ (∀ (parseJson : String → Except String Json) (chunk : String) (chunks : List String)
        (cs : ChunkLoopState) (e : String),
      (processChunk parseJson cs chunk).2 = some e →
      runChunks parseJson (chunk :: chunks) cs = ((processChunk parseJson cs chunk).1, some e))
    ∧ (∀ (parseJson : String → Except String Json) (q : String) (chunks : List String)
        (s0 : StoreState) (e : String),
      (runChunks parseJson chunks
          { loop := { store := startStreamInit q s0, currentEvent := "", time := 0 },
            buffer := "" }).2 = some e →
      (startStreamModel parseJson q chunks s0).error = some (.str e)
      ∧ (startStreamModel parseJson q chunks s0).isStreaming = false) := by
  refine ⟨fun parseJson => processLines_malformed_aborts parseJson, ?_, ?_⟩
  · intro parseJson chunk chunks cs e habort
    rcases hpc : processChunk parseJson cs chunk with ⟨cs2, err⟩
    rw [hpc] at habort
    simp at habort
    subst habort
    simp [runChunks, hpc]
  · intro parseJson q chunks s0 e habort
    rcases hrc : runChunks parseJson chunks
        { loop := { store := startStreamInit q s0, currentEvent := "", time := 0 },
          buffer := "" } with ⟨cs, err⟩
    rw [hrc] at habort
    simp at habort
    subst habort
    simp [startStreamModel, hrc]

/-- Witness for C3 amended at a concrete malformed stream. -/
theorem c3_amended_witness :
    (processLines parseStub ["event: data"]
        { store := initialState, currentEvent := "", time := 0 }).2 = none
    ∧ parseStub "nope" = .error "Unexpected token"
    ∧ processLines parseStub (["event: data"] ++ ("data: " ++ "nope") :: ["event: data", "data: [2]"])
        { store := initialState, currentEvent := "", time := 0 } =
      ((processLines parseStub ["event: data"]
          { store := initialState, currentEvent := "", time := 0 }).1, some "Unexpected token") := by
  refine ⟨rfl, rfl, ?_⟩
  exact c3_amended.1 parseStub ["event: data"] ["event: data", "data: [2]"] "nope"
    "Unexpected token" { store := initialState, currentEvent := "", time := 0 } rfl rfl

/- Claim C4. -/

/-- C4: bracket and dot accessors after the key are not interpreted by
resolveDataSource: the whole remainder after the namespace separator is
looked up as a literal key, so the path sports::teams[0].wins resolves to
no value even though the teams array exists and its element 0 carries a
wins field (the repo documentation promises nested traversal here). -/
theorem c4_no_accessor_traversal :
    resolveDataSource c4Ctx (some "sports::teams[0].wins") = .null
    ∧ resolveDataSource c4Ctx (some "sports::teams") = .arr [.obj [("wins", .num 12)]]
    ∧ jsGet (.obj [("wins", .num 12)]) "wins" = some (.num 12)
    ∧ resolveDataSource (.obj [("music", .obj [("top_songs", .arr [.obj [("title", .str "A")]])])])
        (some "music::top_songs") = .arr [.obj [("title", .str "A")]]
    ∧ resolveDataSource (.obj [("music", .obj [("top_songs", .arr [.obj [("title", .str "A")]])])])
        (some "music::missing") = .null
    ∧ resolveDataSource (.obj [("a", .obj [("b", .arr [.num 1, .num 2])])]) (some "a::b[5]") = .null := by
  exact ⟨rfl, rfl, rfl, rfl, rfl, rfl⟩

/- Claim C6. -/

/-- C6 counterexample: the dispatcher does not attach the enclosing slot
identity: the forwarded payload carries the slotId field of the partial
payload supplied by the widget (here custom-id), which differs from the
identity of the enclosing slot. -/
theorem c6_counterexample :
    (handleInteraction "List" (c6Slot.getAttr "interaction") "select"
        { clickPrompt := none, slotId := "custom-id", clickedData := .null }).2.slotId = "custom-id"
    ∧ generateSlotId c6Slot = "List::music::top_songs"
    ∧ "custom-id" ≠ "List::music::top_songs" := by
  exact ⟨rfl, rfl, by decide⟩

/-- C6 amended: one invocation of the dispatcher forwards exactly one
(interactionType, payload) pair whose payload contains the partial payload
fields unchanged plus the enclosing slot componentType (its type attribute)
and interaction mode (its interaction attribute); the slot identity is not
added, the slotId field being the partial payload one. -/
theorem c6_amended (slot : DomNode) (cty : String) (ty : String) (p : PartialPayload)
    (h : slot.getAttr "type" = some cty) :
    handleInteraction cty (slot.getAttr "interaction") ty p =
      (ty, { componentType := cty, interaction := slot.getAttr "interaction",
             clickPrompt := p.clickPrompt, slotId := p.slotId, clickedData := p.clickedData })
    ∧ (handleInteraction cty (slot.getAttr "interaction") ty p).2.slotId = p.slotId := by
  exact ⟨rfl, rfl⟩

/-- Witness for C6 amended at the concrete slot. -/
theorem c6_amended_witness :
    c6Slot.getAttr "type" = some "List"
    ∧ handleInteraction "List" (c6Slot.getAttr "interaction") "select"
        { clickPrompt := some "dive in", slotId := "s1", clickedData := .num 7 } =
      ("select", { componentType := "List", interaction := c6Slot.getAttr "interaction",
                   clickPrompt := some "dive in", slotId := "s1", clickedData := .num 7 }) := by
  refine ⟨rfl, ?_⟩
  exact (c6_amended c6Slot "List" "select"
    { clickPrompt := some "dive in", slotId := "s1", clickedData := .num 7 } rfl).1

/- Claim C8. -/

/-- C8: once at least one slot is mounted, a buffer whose closing tag count
equals the count recorded at the last processed update is skipped entirely:
the reconciliation effect returns the state unchanged (no sanitize or parse
logging, no container change), even if the buffer appended non-slot
markup. -/
theorem c8_equal_count_skips (sanParse : String → List DomNode) (s : RendererState)
    (html : String) (hcount : countClosingTags html = s.lastClosingTagCount)
    (hmounted : s.mountedSlots ≠ []) :
    htmlContentEffect sanParse s html = s := by
  unfold htmlContentEffect
  split
  · rfl
  · rw [if_pos ⟨hcount, List.length_pos.mpr hmounted⟩]

/-- Witness for C8: the recorded count is one, the new buffer appends a
plain div after the closed slot (count still one), and the effect is the
identity on the whole renderer state. -/
theorem c8_witness :
    countClosingTags c8Html = c8State.lastClosingTagCount
    ∧ c8State.mountedSlots ≠ []
    ∧ htmlContentEffect (fun _ => []) c8State c8Html = c8State := by
  refine ⟨rfl, by decide, ?_⟩
  exact c8_equal_count_skips (fun _ => []) c8State c8Html rfl (by decide)

/- Claim C2. -/

/-- C2: the reconciliation effect never classifies an update as a full
replacement and never destroys mounted slots: at the concrete
full-replacement input (the new buffer is not the old buffer plus a
suffix and omits the mounted identity) the pass leaves the roots map and
the mounted set unchanged and unmounts nothing; the repo documentation
(fresh-render detection calling cleanupRoots on complete replacement)
promises the destruction the code does not perform. -/
theorem c2_no_destruction_on_replacement :
    (htmlContentEffect c2SanParse c2State "<p>replaced</p>").roots = c2State.roots
    ∧ (htmlContentEffect c2SanParse c2State "<p>replaced</p>").mountedSlots = c2State.mountedSlots
    ∧ (htmlContentEffect c2SanParse c2State "<p>replaced</p>").unmounted = []
    ∧ strIsPrefixOf "<component-slot type=\"List\" data-source=\"music::top\"></component-slot>"
        "<p>replaced</p>" = false
    ∧ (slotIds (c2SanParse "<p>replaced</p>")).contains "List::music::top" = false := by
  exact ⟨rfl, rfl, rfl, by decide, rfl⟩

/- Claim C1: lemmas about the keyed-element index and the patch model. -/

mutual
theorem keyedElems_closed : ∀ (n : DomNode) (k : String) (el : DomNode),
    (k, el) ∈ keyedElems n → ∀ x ∈ keyedElems el, x ∈ keyedElems n
  | .text s, k, el, h => by simp [keyedElems] at h
  | .elem t a o cs, k, el, h => by
    intro x hx
    have h2 := h
    rw [keyedElems] at h2
    rcases List.mem_append.mp h2 with h1 | h3
    · rcases hattr : (DomNode.elem t a o cs).getAttr "data-slot-id" with _ | k0 <;>
        rw [hattr] at h1 <;> simp at h1
      obtain ⟨hk, hel⟩ := h1
      rw [hel] at hx
      exact hx
    · rw [keyedElems]
      exact List.mem_append.mpr (Or.inr (keyedElemsList_closed cs k el h3 x hx))

theorem keyedElemsList_closed : ∀ (L : List DomNode) (k : String) (el : DomNode),
    (k, el) ∈ keyedElemsList L → ∀ x ∈ keyedElems el, x ∈ keyedElemsList L
  | [], k, el, h => by simp [keyedElemsList] at h
  | n :: ns, k, el, h => by
    intro x hx
    have h2 := h
    rw [keyedElemsList] at h2
    rw [keyedElemsList]
    rcases List.mem_append.mp h2 with h1 | h3
    · exact List.mem_append.mpr (Or.inl (keyedElems_closed n k el h1 x hx))
    · exact List.mem_append.mpr (Or.inr (keyedElemsList_closed ns k el h3 x hx))
end

mutual
theorem keyedElems_attr : ∀ (n : DomNode) (k : String) (el : DomNode),
    (k, el) ∈ keyedElems n → el.getAttr "data-slot-id" = some k
  | .text s, k, el, h => by simp [keyedElems] at h
  | .elem t a o cs, k, el, h => by
    have h2 := h
    rw [keyedElems] at h2
    rcases List.mem_append.mp h2 with h1 | h3
    · rcases hattr : (DomNode.elem t a o cs).getAttr "data-slot-id" with _ | k0 <;>
        rw [hattr] at h1 <;> simp at h1
      obtain ⟨hk, hel⟩ := h1
      rw [hel, hk]
      exact hattr
    · exact keyedElemsList_attr cs k el h3

theorem keyedElemsList_attr : ∀ (L : List DomNode) (k : String) (el : DomNode),
    (k, el) ∈ keyedElemsList L → el.getAttr "data-slot-id" = some k
  | [], k, el, h => by simp [keyedElemsList] at h
  | n :: ns, k, el, h => by
    have h2 := h
    rw [keyedElemsList] at h2
    rcases List.mem_append.mp h2 with h1 | h3
    · exact keyedElems_attr n k el h1
    · exact keyedElemsList_attr ns k el h3
end

theorem keyedElems_self_mem (el : DomNode) (k : String)
    (h : el.getAttr "data-slot-id" = some k) : (k, el) ∈ keyedElems el := by
  cases el with
  | text s => simp [DomNode.getAttr] at h
  | elem t a o cs =>
    rw [keyedElems, h]
    exact List.mem_append.mpr (Or.inl (List.mem_singleton.mpr rfl))

theorem keyedElemsList_mem : ∀ (L : List DomNode) (p : String × DomNode),
    p ∈ keyedElemsList L → ∃ n ∈ L, p ∈ keyedElems n
  | [], p, h => by simp [keyedElemsList] at h
  | n :: ns, p, h => by
    have h2 := h
    rw [keyedElemsList] at h2
    rcases List.mem_append.mp h2 with h1 | h3
    · exact ⟨n, List.mem_cons_self n ns, h1⟩
    · obtain ⟨m, hm, hp⟩ := keyedElemsList_mem ns p h3
      exact ⟨m, List.mem_cons_of_mem n hm, hp⟩

theorem keyedElems_subset_list : ∀ (L : List DomNode) (n : DomNode), n ∈ L →
    ∀ p ∈ keyedElems n, p ∈ keyedElemsList L
  | [], n, h => by simp at h
  | m :: ms, n, h => by
    intro p hp
    rw [keyedElemsList]
    rcases List.mem_cons.mp h with h1 | h2
    · subst h1
      exact List.mem_append.mpr (Or.inl hp)
    · exact List.mem_append.mpr (Or.inr (keyedElems_subset_list ms n h2 p hp))

theorem keyedElemsList_append : ∀ (A B : List DomNode),
    keyedElemsList (A ++ B) = keyedElemsList A ++ keyedElemsList B
  | [], B => by simp [keyedElemsList]
  | n :: ns, B => by
    show keyedElems n ++ keyedElemsList (ns ++ B) =
      (keyedElems n ++ keyedElemsList ns) ++ keyedElemsList B
    rw [keyedElemsList_append ns B, List.append_assoc]

theorem lookupFirst_mem {k : String} {l : List (String × DomNode)} {el : DomNode}
    (h : lookupFirst k l = some el) : (k, el) ∈ l := by
  unfold lookupFirst at h
  rcases hf : l.find? (fun kv => kv.1 = k) with _ | kv
  · rw [hf] at h
    simp at h
  · rw [hf] at h
    simp at h
    have hmem := List.mem_of_find?_eq_some hf
    have hpred := List.find?_some hf
    simp at hpred
    have hkv : kv = (k, el) := by
      cases kv
      simp_all
    rw [hkv] at hmem
    exact hmem

theorem lookupFirst_none {k : String} {l : List (String × DomNode)}
    (h : lookupFirst k l = none) (el : DomNode) : (k, el) ∉ l := by
  intro hmem
  unfold lookupFirst at h
  rcases hf : l.find? (fun kv => kv.1 = k) with _ | kv
  · have := List.find?_eq_none.mp hf (k, el) hmem
    simp at this
  · rw [hf] at h
    simp at h

theorem lookupFirst_of_all {k : String} {wrap : DomNode} :
    ∀ {l : List (String × DomNode)}, (∃ x, (k, x) ∈ l) → (∀ x, (k, x) ∈ l → x = wrap) →
    lookupFirst k l = some wrap := by
  intro l
  induction l with
  | nil =>
    intro hmem _
    obtain ⟨x, hx⟩ := hmem
    simp at hx
  | cons kv rest ih =>
    intro hmem hall
    by_cases hkv : kv.1 = k
    · unfold lookupFirst
      rw [List.find?_cons_of_pos _ (by simp [hkv])]
      simp only [Option.map_some']
      have : (k, kv.2) ∈ kv :: rest := by
        have : kv = (k, kv.2) := by
          cases kv
          simp_all
        rw [← this]
        exact List.mem_cons_self kv rest
      rw [hall kv.2 this]
    · unfold lookupFirst
      rw [List.find?_cons_of_neg _ (by simp [hkv])]
      apply ih
      · obtain ⟨x, hx⟩ := hmem
        rcases List.mem_cons.mp hx with h1 | h2
        · exfalso
          apply hkv
          rw [← h1]
        · exact ⟨x, h2⟩
      · intro x hx
        exact hall x (List.mem_cons_of_mem kv hx)

mutual
theorem morphTransform_key_sound :
    ∀ (idx : List (String × DomNode)) (key : String) (wrap : DomNode) (n : DomNode),
    (∀ k el, (k, el) ∈ idx → ∀ x ∈ keyedElems el, x ∈ idx) →
    (∀ x, (key, x) ∈ idx → x = wrap) →
    (key, wrap) ∈ idx →
    ∀ x, (key, x) ∈ keyedElems (morphTransform idx n) → x = wrap
  | idx, key, wrap, .text s, hclosed, hall, hmem => by
    intro x hx
    simp [morphTransform, keyedElems] at hx
  | idx, key, wrap, .elem t a o cs, hclosed, hall, hmem => by
    intro x hx
    rw [morphTransform] at hx
    rcases hattr : (DomNode.elem t a o cs).getAttr "data-slot-id" with _ | k0
    · rw [hattr] at hx
      dsimp only at hx
      rw [keyedElems] at hx
      have hattr2 : (DomNode.elem t a o (morphTransformList idx cs)).getAttr "data-slot-id" = none :=
        hattr
      rw [hattr2] at hx
      simp only [List.nil_append] at hx
      exact morphTransformList_key_sound idx key wrap cs hclosed hall hmem x hx
    · rw [hattr] at hx
      dsimp only at hx
      rcases hl : lookupFirst k0 idx with _ | fromEl
      · rw [hl] at hx
        dsimp only at hx
        rw [keyedElems] at hx
        have hattr2 : (DomNode.elem t a o (morphTransformList idx cs)).getAttr "data-slot-id" =
            some k0 := hattr
        rw [hattr2] at hx
        rcases List.mem_append.mp hx with h1 | h2
        · simp at h1
          obtain ⟨hk, hx2⟩ := h1
          exfalso
          exact lookupFirst_none (hk ▸ hl) wrap hmem
        · exact morphTransformList_key_sound idx key wrap cs hclosed hall hmem x h2
      · rw [hl] at hx
        dsimp only at hx
        have hmemFrom : (k0, fromEl) ∈ idx := lookupFirst_mem hl
        exact hall x (hclosed k0 fromEl hmemFrom (key, x) hx)

theorem morphTransformList_key_sound :
    ∀ (idx : List (String × DomNode)) (key : String) (wrap : DomNode) (L : List DomNode),
    (∀ k el, (k, el) ∈ idx → ∀ x ∈ keyedElems el, x ∈ idx) →
    (∀ x, (key, x) ∈ idx → x = wrap) →
    (key, wrap) ∈ idx →
    ∀ x, (key, x) ∈ keyedElemsList (morphTransformList idx L) → x = wrap
  | idx, key, wrap, [], hclosed, hall, hmem => by
    intro x hx
    simp [morphTransformList, keyedElemsList] at hx
  | idx, key, wrap, n :: ns, hclosed, hall, hmem => by
    intro x hx
    rw [morphTransformList, keyedElemsList] at hx
    rcases List.mem_append.mp hx with h1 | h2
    · exact morphTransform_key_sound idx key wrap n hclosed hall hmem x h1
    · exact morphTransformList_key_sound idx key wrap ns hclosed hall hmem x h2
end

/-- Decomposition of the patch model into the transformed candidate and the
retained keyed live elements. -/
theorem morphdomModel_eq (container candidate : List DomNode) :
    morphdomModel container candidate =
      morphTransformList (keyedElemsList container) candidate ++
      ((keyedElemsList container).filter (fun kv =>
        !(((keyedElemsList (morphTransformList (keyedElemsList container) candidate)).map
            (fun kv => kv.1)).contains kv.1))).map (fun kv => kv.2) := rfl

/-- The heart of identity preservation: when the live tree holds exactly one
keyed element for the identity, the patched tree holds that very element
(and no other) for the identity, whatever the candidate tree is. -/
theorem morphdomModel_preserves (container candidate : List DomNode) (I : String)
    (wrap : DomNode)
    (hfilter : (keyedElemsList container).filter (fun kv => kv.1 = I) = [(I, wrap)]) :
    lookupFirst I (keyedElemsList (morphdomModel container candidate)) = some wrap := by
  have hmem : (I, wrap) ∈ keyedElemsList container := by
    apply List.mem_of_mem_filter (p := fun kv => kv.1 = I)
    rw [hfilter]
    exact List.mem_singleton.mpr rfl
  have hall : ∀ x, (I, x) ∈ keyedElemsList container → x = wrap := by
    intro x hx
    have hx2 : (I, x) ∈ (keyedElemsList container).filter (fun kv => kv.1 = I) :=
      List.mem_filter.mpr ⟨hx, by simp⟩
    rw [hfilter] at hx2
    simp at hx2
    exact hx2
  have hclosed := keyedElemsList_closed container
  rw [morphdomModel_eq, keyedElemsList_append]
  have hallM : ∀ x, (I, x) ∈
      keyedElemsList (morphTransformList (keyedElemsList container) candidate) → x = wrap :=
    fun x hx => morphTransformList_key_sound (keyedElemsList container) I wrap candidate
      hclosed hall hmem x hx
  have hallR : ∀ (cond : String × DomNode → Bool) x,
      (I, x) ∈ keyedElemsList (((keyedElemsList container).filter cond).map (fun kv => kv.2)) →
      x = wrap := by
    intro cond x hx
    obtain ⟨n, hn, hp⟩ := keyedElemsList_mem _ (I, x) hx
    obtain ⟨kv, hkv, hsnd⟩ := List.mem_map.mp hn
    have hkvIdx : kv ∈ keyedElemsList container := List.mem_of_mem_filter hkv
    have hkvIdx2 : (kv.1, kv.2) ∈ keyedElemsList container := by
      have hkve : (kv.1, kv.2) = kv := rfl
      rw [hkve]
      exact hkvIdx
    have hIx : (I, x) ∈ keyedElemsList container := by
      apply hclosed kv.1 kv.2 hkvIdx2 (I, x)
      rw [hsnd]
      exact hp
    exact hall x hIx
  by_cases hc : ∃ x, (I, x) ∈
      keyedElemsList (morphTransformList (keyedElemsList container) candidate)
  · apply lookupFirst_of_all
    · obtain ⟨x, hx⟩ := hc
      exact ⟨x, List.mem_append.mpr (Or.inl hx)⟩
    · intro x hx
      rcases List.mem_append.mp hx with h1 | h2
      · exact hallM x h1
      · exact hallR _ x h2
  · have hIK : ((keyedElemsList (morphTransformList (keyedElemsList container)
        candidate)).map (fun kv => kv.1)).contains I = false := by
      by_contra hcc
      simp only [Bool.not_eq_false] at hcc
      obtain ⟨a, ha, hbeq⟩ := List.contains_iff_exists_mem_beq.mp hcc
      have haI : I = a := by simpa using hbeq
      rw [haI] at hc
      obtain ⟨kv, hkv, hfst⟩ := List.mem_map.mp ha
      apply hc
      refine ⟨kv.2, ?_⟩
      have hkve : (a, kv.2) = kv := by
        cases kv
        simp_all
      rw [hkve]
      exact hkv
    have hattrW : wrap.getAttr "data-slot-id" = some I := keyedElemsList_attr container I wrap hmem
    have hwrapRet : wrap ∈ ((keyedElemsList container).filter (fun kv =>
        !(((keyedElemsList (morphTransformList (keyedElemsList container) candidate)).map
            (fun kv => kv.1)).contains kv.1))).map (fun kv => kv.2) := by
      apply List.mem_map.mpr
      refine ⟨(I, wrap), List.mem_filter.mpr ⟨hmem, ?_⟩, rfl⟩
      simp only [hIK]
      rfl
    apply lookupFirst_of_all
    · refine ⟨wrap, List.mem_append.mpr (Or.inr ?_)⟩
      exact keyedElems_subset_list _ wrap hwrapRet (I, wrap) (keyedElems_self_mem wrap I hattrW)
    · intro x hx
      rcases List.mem_append.mp hx with h1 | h2
      · exact hallM x h1
      · exact hallR _ x h2

/-- C1: identity preservation.  For a reconciliation pass over a grown
markup buffer (incremental growth side conditions included as stated by the
spec), a slot identity I that is mounted, whose React root is recorded and
whose wrapper is the unique keyed element of the container for I, keeps the
very same wrapper element (same object identity) and the very same roots
map after the pass, whatever the sanitized candidate holds; and while I
remains in the mounted set the observer mount guard is a no-op for any slot
with identity I, so the mount routine runs at most once per mounted
identity. -/
theorem c1_identity_preservation
    (sanParse : String → List DomNode) (registry : List String)
    (parseJson : String → Except String Json) (ctx : Json)
    (s : RendererState) (oldHtml html I : String) (r : Nat) (wrap : DomNode)
    (hmount : I ∈ s.mountedSlots)
    (hroot : getAssoc s.roots I = some r)
    (hfilter : (keyedElemsList s.container).filter (fun kv => kv.1 = I) = [(I, wrap)])
    (hcand : I ∈ slotIds (sanParse html))
    (hgrow : strIsPrefixOf oldHtml html = true)
    (hcount : s.lastClosingTagCount = countClosingTags oldHtml) :
    lookupFirst I (keyedElemsList (htmlContentEffect sanParse s html).container) = some wrap
    ∧ (htmlContentEffect sanParse s html).roots = s.roots
    ∧ getAssoc (htmlContentEffect sanParse s html).roots I = some r
    ∧ I ∈ (htmlContentEffect sanParse s html).mountedSlots
    ∧ ∀ slot : DomNode, generateSlotId slot = I →
        guardMount registry parseJson ctx (htmlContentEffect sanParse s html) slot =
          htmlContentEffect sanParse s html := by
  have hmem : (I, wrap) ∈ keyedElemsList s.container := by
    apply List.mem_of_mem_filter (p := fun kv => kv.1 = I)
    rw [hfilter]
    exact List.mem_singleton.mpr rfl
  have hall : ∀ x, (I, x) ∈ keyedElemsList s.container → x = wrap := by
    intro x hx
    have hx2 : (I, x) ∈ (keyedElemsList s.container).filter (fun kv => kv.1 = I) :=
      List.mem_filter.mpr ⟨hx, by simp⟩
    rw [hfilter] at hx2
    simp at hx2
    exact hx2
  have hbase : lookupFirst I (keyedElemsList s.container) = some wrap :=
    lookupFirst_of_all ⟨wrap, hmem⟩ hall
  have heff : (htmlContentEffect sanParse s html).roots = s.roots
      ∧ (htmlContentEffect sanParse s html).mountedSlots = s.mountedSlots
      ∧ ((htmlContentEffect sanParse s html).container = s.container
         ∨ ∃ candidate, (htmlContentEffect sanParse s html).container =
             morphdomModel s.container candidate) := by
    unfold htmlContentEffect
    split
    · exact ⟨rfl, rfl, Or.inl rfl⟩
    · dsimp only
      split
      · exact ⟨rfl, rfl, Or.inl rfl⟩
      · exact ⟨rfl, rfl, Or.inr ⟨_, rfl⟩⟩
  obtain ⟨hr, hm, hcont⟩ := heff
  refine ⟨?_, hr, by rw [hr]; exact hroot, by rw [hm]; exact hmount, ?_⟩
  · rcases hcont with h1 | ⟨candidate, h2⟩
    · rw [h1]
      exact hbase
    · rw [h2]
      exact morphdomModel_preserves s.container candidate I wrap hfilter
  · intro slot hslot
    unfold guardMount
    rw [hslot]
    rw [if_pos ?hc]
    case hc =>
      rw [hm]
      simp [List.elem_eq_mem, hmount]

/-- Witness for C1 at the concrete grown-buffer scenario. -/
theorem c1_witness :
    ("List::music::top" ∈ c1State.mountedSlots)
    ∧ getAssoc c1State.roots "List::music::top" = some 4
    ∧ (keyedElemsList c1State.container).filter (fun kv => kv.1 = "List::music::top") =
        [("List::music::top", c1Wrapper)]
    ∧ ("List::music::top" ∈ slotIds (c1SanParse c1Html))
    ∧ strIsPrefixOf c1OldHtml c1Html = true
    ∧ c1State.lastClosingTagCount = countClosingTags c1OldHtml
    ∧ lookupFirst "List::music::top"
        (keyedElemsList (htmlContentEffect c1SanParse c1State c1Html).container) = some c1Wrapper
    ∧ (htmlContentEffect c1SanParse c1State c1Html).roots = c1State.roots := by
  have h := c1_identity_preservation c1SanParse componentRegistryNames
    (fun _ => .error "unused") (.obj []) c1State c1OldHtml c1Html "List::music::top" 4 c1Wrapper
    (by simp [c1State]) rfl rfl (by decide) (by decide) rfl
  exact ⟨by simp [c1State], rfl, rfl, by decide, by decide, rfl, h.1, h.2.1⟩

end Mosaic
